import Mathlib

/-!
Verification of the product CRUD HTTP service (src/app.js).

The embedding models:
- the scalar fragment of JSON values appearing in request bodies and query
  strings (strings, numbers, booleans, null; JSON has no undefined, absence
  of a field is Option.none);
- JavaScript number semantics as used by the handlers: NaN and the two
  infinities are explicit constructors, finite values are exact decimal
  fractions num / 10 ^ exp, and the Number() coercion on strings follows the
  ECMAScript StringToNumber decimal grammar (whitespace trim, optional sign,
  Infinity, decimal digits with optional fraction and exponent). Hex, octal
  and binary numeric literal strings are outside the modelled fragment;
- the document store as a list of key-value documents. The store itself is
  the external MongoDB collection, so its operations (filtered find, sort,
  projection, findOne, insertOne, findOneAndUpdate with $set, deleteOne) are
  modelled from the spec section 2 and the glossary;
- each route handler of src/app.js, line by line, returning the HTTP
  response, the resulting store and the trace of store calls it made.
-/

/-- JavaScript numbers: NaN, the infinities, and finite decimal values.
A finite value fin num exp denotes num / 10 ^ exp (not normalised, so
syntactic equality is only used where the source compares with NaN). -/
inductive JNum where
  | nan : JNum
  | inf : JNum
  | ninf : JNum
  | fin (num : Int) (exp : Nat) : JNum
deriving DecidableEq

/-- Scalar JSON values of request bodies and documents. -/
inductive JVal where
  | jstr (s : String) : JVal
  | jnum (n : JNum) : JVal
  | jbool (b : Bool) : JVal
  | jnull : JVal
deriving DecidableEq

/-- Numeric value of a finite JNum as a rational, for stating order facts. -/
def JNum.toRat : JNum → ℚ
  | .nan => 0
  | .inf => 0
  | .ninf => 0
  | .fin n e => (n : ℚ) / 10 ^ e

/-- JavaScript truthiness of a scalar value: empty string, 0, NaN, null and
false are falsy, everything else is truthy. -/
def JVal.truthy : JVal → Bool
  | .jstr s => s ≠ ""
  | .jnum .nan => false
  | .jnum (.fin n _) => n ≠ 0
  | .jnum _ => true
  | .jbool b => b
  | .jnull => false

/-- Truthiness of a possibly-absent value: undefined is falsy. -/
def truthyOpt : Option JVal → Bool
  | none => false
  | some v => v.truthy

/-- Whitespace characters trimmed by JavaScript string trimming (common
ASCII fragment). -/
def jsIsWs (c : Char) : Bool :=
  c = ' ' || c = '\t' || c = '\n' || c = '\r' || c = '\x0b' || c = '\x0c'

/-- JavaScript String.prototype.trim on the modelled whitespace set. -/
def jsTrim (s : String) : String :=
  String.mk (((s.data.dropWhile jsIsWs).reverse.dropWhile jsIsWs).reverse)

/-- Digits of a decimal literal read as a natural number. -/
def digitsToNat (cs : List Char) : Nat :=
  cs.foldl (fun a c => a * 10 + (c.toNat - 48)) 0

/-- Optionally signed all-digit suffix, as used for the exponent part of a
numeric literal; none when malformed. -/
def parseSignedNat (cs : List Char) : Option Int :=
  match cs with
  | '-' :: r => if r ≠ [] ∧ r.all Char.isDigit then some (-(digitsToNat r : Int)) else none
  | '+' :: r => if r ≠ [] ∧ r.all Char.isDigit then some ((digitsToNat r : Int)) else none
  | r => if r ≠ [] ∧ r.all Char.isDigit then some ((digitsToNat r : Int)) else none

/-- Exponent part of a numeric literal: empty means exponent 0, otherwise
e or E followed by an optionally signed digit string consuming the rest. -/
def parseExpPart (cs : List Char) : Option Int :=
  match cs with
  | [] => some 0
  | 'e' :: rest => parseSignedNat rest
  | 'E' :: rest => parseSignedNat rest
  | _ => none

/-- Unsigned decimal mantissa digits[.digits] or .digits; returns the value
as (scaled integer, number of fraction digits) and the unconsumed rest. -/
def parseDecMantissa (cs : List Char) : Option ((Int × Nat) × List Char) :=
  let ip := cs.takeWhile Char.isDigit
  let rest := cs.dropWhile Char.isDigit
  match rest with
  | '.' :: rest2 =>
    let fp := rest2.takeWhile Char.isDigit
    let rest3 := rest2.dropWhile Char.isDigit
    if ip = [] ∧ fp = [] then none
    else some (((digitsToNat ip * 10 ^ fp.length + digitsToNat fp : Int), fp.length), rest3)
  | _ => if ip = [] then none else some (((digitsToNat ip : Int), 0), rest)

/-- Apply a base-10 exponent to a scaled mantissa. -/
def applyExp (m : Int × Nat) (e : Int) : Int × Nat :=
  if 0 ≤ e then (m.1 * 10 ^ e.toNat, m.2) else (m.1, m.2 + (-e).toNat)

/-- ECMAScript Number() on a string (StringToNumber), decimal fragment:
trimmed empty string is 0, optional sign, Infinity, or a decimal literal
with optional fraction and exponent; anything else is NaN. -/
def stringToNumber (s : String) : JNum :=
  let t := jsTrim s
  if t = "" then .fin 0 0
  else
    let sgn : Bool × List Char :=
      match t.data with
      | '-' :: r => (true, r)
      | '+' :: r => (false, r)
      | r => (false, r)
    if sgn.2 = "Infinity".data then (if sgn.1 then .ninf else .inf)
    else
      match parseDecMantissa sgn.2 with
      | none => .nan
      | some (m, rest) =>
        match parseExpPart rest with
        | none => .nan
        | some e =>
          let ne := applyExp m e
          .fin (if sgn.1 then -ne.1 else ne.1) ne.2

/-- JavaScript Number() coercion on scalar values. -/
def JVal.toNumber : JVal → JNum
  | .jstr s => stringToNumber s
  | .jnum n => n
  | .jbool b => if b then .fin 1 0 else .fin 0 0
  | .jnull => .fin 0 0

/-- Total comparison on JavaScript numbers as the store orders them:
NaN lowest, then negative infinity, finite values by magnitude, positive
infinity highest. On non-NaN arguments it agrees with the numeric order. -/
def JNum.leb : JNum → JNum → Bool
  | .nan, _ => true
  | _, .nan => false
  | .ninf, _ => true
  | _, .ninf => false
  | .fin n1 e1, .fin n2 e2 => n1 * (10 : Int) ^ e2 ≤ n2 * (10 : Int) ^ e1
  | .fin _ _, .inf => true
  | .inf, .fin _ _ => false
  | .inf, .inf => true

/-- A finite JavaScript number (neither NaN nor an infinity). -/
def JNum.isFinite : JNum → Bool
  | .fin _ _ => true
  | _ => false

/-- A stored document: an association list of field names to scalar values. -/
abbrev Doc := List (String × JVal)

/-- The product collection: a list of documents. -/
abbrev Store := List Doc

/-- First value bound to a field name in a document. -/
def lookupField (d : Doc) (k : String) : Option JVal :=
  (d.find? (fun kv => kv.1 = k)).map (fun kv => kv.2)

/-- Set one field of a document: overwrite in place when present, append
otherwise. -/
def setField (d : Doc) (k : String) (v : JVal) : Doc :=
  if d.any (fun kv => kv.1 = k) then
    d.map (fun kv => if kv.1 = k then (k, v) else kv)
  else d ++ [(k, v)]

/-- Apply a $set update document field by field. -/
def setFields (d : Doc) (upd : Doc) : Doc :=
  upd.foldl (fun acc kv => setField acc kv.1 kv.2) d

/-- Whether a document carries the given identifier in its _id field. -/
def idMatches (i : String) (d : Doc) : Bool :=
  lookupField d "_id" = some (.jstr i)

/-- Rewrite the first document satisfying the predicate, keep the rest. -/
def updateFirst (p : Doc → Bool) (f : Doc → Doc) : Store → Store
  | [] => []
  | d :: ds => if p d then f d :: ds else d :: updateFirst p f ds

/-- Remove the first document satisfying the predicate. -/
def removeFirst (p : Doc → Bool) : Store → Store
  | [] => []
  | d :: ds => if p d then ds else d :: removeFirst p ds

/-- Query filter built by the list handler: optional category equality and
optional price lower bound. -/
structure QFilter where
  category : Option String
  minPrice : Option JNum
deriving DecidableEq

/-- Sort specification: by price ascending or descending. -/
inductive SortSpec where
  | asc : SortSpec
  | desc : SortSpec
deriving DecidableEq

/-- Find options: optional sort and optional field projection. -/
structure FindOptions where
  sortSpec : Option SortSpec
  projection : Option (List String)
deriving DecidableEq

/-- Modelled from the spec (4.1, glossary): a document matches the filter
when it equals the requested category (if constrained) and its price field
is a number at least the requested lower bound (if constrained). -/
def matchesFilter (f : QFilter) (d : Doc) : Bool :=
  (match f.category with
   | none => true
   | some c => lookupField d "category" = some (.jstr c)) &&
  (match f.minPrice with
   | none => true
   | some m =>
     match lookupField d "price" with
     | some (.jnum p) => JNum.leb m p
     | _ => false)

/-- Price key of a document for sorting; non-numeric or absent prices sort
lowest. -/
def docPrice (d : Doc) : JNum :=
  match lookupField d "price" with
  | some (.jnum p) => p
  | _ => .nan

/-- Insert into a list sorted by the given comparison. -/
def insertSorted (le : Doc → Doc → Bool) (d : Doc) : List Doc → List Doc
  | [] => [d]
  | e :: es => if le d e then d :: e :: es else e :: insertSorted le d es

/-- Insertion sort by the given comparison. -/
def sortDocsBy (le : Doc → Doc → Bool) : List Doc → List Doc
  | [] => []
  | d :: ds => insertSorted le d (sortDocsBy le ds)

/-- Modelled from the spec: the store sorts results by price when a sort
specification is given. -/
def applySort : Option SortSpec → List Doc → List Doc
  | none, ds => ds
  | some .asc, ds => sortDocsBy (fun a b => JNum.leb (docPrice a) (docPrice b)) ds
  | some .desc, ds => sortDocsBy (fun a b => JNum.leb (docPrice b) (docPrice a)) ds

/-- Modelled from the spec (glossary): a projection restricts a result
document to exactly the named fields. -/
def applyProjection : Option (List String) → Doc → Doc
  | none, d => d
  | some ks, d => d.filter (fun kv => ks.contains kv.1)

/-- Modelled from the spec: filtered find with sort and projection. -/
def collectionFind (st : Store) (f : QFilter) (o : FindOptions) : List Doc :=
  (applySort o.sortSpec (st.filter (matchesFilter f))).map (applyProjection o.projection)

/-- Modelled from the spec: find-by-id returns the first document with the
given identifier. -/
def collectionFindOne (st : Store) (i : String) : Option Doc :=
  st.find? (idMatches i)

/-- Modelled from the spec: insert appends the record with a store-assigned
identifier; the fresh identifier is passed in as a parameter. -/
def collectionInsertOne (st : Store) (d : Doc) (freshId : String) : Store × String :=
  (st ++ [("_id", JVal.jstr freshId) :: d], freshId)

/-- Result wrapper of the findOneAndUpdate driver call: its value field
holds the resulting document, or null when no document matched. -/
structure FindOneAndUpdateResult where
  value : Option Doc
deriving DecidableEq

/-- Modelled from the spec: update-by-id applies the $set document to the
first document with the given identifier and returns the document after the
update inside the result wrapper; value is null when no document matched. -/
def collectionFindOneAndUpdate (st : Store) (i : String) (upd : Doc) :
    Store × FindOneAndUpdateResult :=
  (updateFirst (idMatches i) (fun d => setFields d upd) st,
   ⟨(st.find? (idMatches i)).map (fun d => setFields d upd)⟩)

/-- Modelled from the spec: delete-by-id removes the first document with the
given identifier and reports how many documents were deleted. -/
def collectionDeleteOne (st : Store) (i : String) : Store × Nat :=
  match st.find? (idMatches i) with
  | none => (st, 0)
  | some _ => (removeFirst (idMatches i) st, 1)

/-- Modelled from the spec (glossary): a valid store identifier is a
24-hex-character value (the ObjectId string format checked by the driver). -/
def isValidObjectId (s : String) : Bool :=
  s.length = 24 && s.data.all (fun c => c.isDigit || ('a' ≤ c && c ≤ 'f') || ('A' ≤ c && c ≤ 'F'))

/-- Response bodies: each constructor mirrors one JSON object literal sent
by src/app.js. -/
inductive Body where
  | errorMsg (s : String) : Body
  | links (ls : List String) : Body
  | listOk (count : Nat) (products : List Doc) : Body
  | doc (d : Doc) : Body
  | created (message : String) (id : String) : Body
  | updated (message : String) (product : Doc) : Body
  | deleted (message : String) : Body
deriving DecidableEq

/-- An HTTP response: status code and JSON body. -/
structure Response where
  status : Nat
  body : Body
deriving DecidableEq

/-- Store operations a handler can issue, in order. -/
inductive StoreOp where
  | opFind (f : QFilter) (o : FindOptions) : StoreOp
  | opFindOne (i : String) : StoreOp
  | opInsertOne (d : Doc) : StoreOp
  | opFindOneAndUpdate (i : String) (upd : Doc) : StoreOp
  | opDeleteOne (i : String) : StoreOp
deriving DecidableEq

/-- Query parameters of GET /api/products as express delivers them: each is
a string when present in the query string. -/
structure QueryParams where
  category : Option String
  minPrice : Option String
  sortQ : Option String
  fields : Option String
deriving DecidableEq

/-- Request body fields as express.json delivers them: each of the three
product fields is a scalar JSON value or absent. -/
structure ReqBody where
  name : Option JVal
  price : Option JVal
  category : Option JVal
deriving DecidableEq

/-- JavaScript split on "," (the separator is non-empty, so the empty string
splits to one empty segment). -/
def splitCommaAux : List Char → List Char → List String
  | [], acc => [String.mk acc.reverse]
  | ',' :: rest, acc => String.mk acc.reverse :: splitCommaAux rest []
  | c :: rest, acc => splitCommaAux rest (c :: acc)

/-- fields.split(",") of the list handler. -/
def jsSplitComma (s : String) : List String :=
  splitCommaAux s.data []

/-- The projection field list the list handler builds from the fields
parameter: split on commas, trim each segment, drop empty segments
(src/app.js line 74). -/
def fieldsOf (fs : String) : List String :=
  ((jsSplitComma fs).map jsTrim).filter (fun s => s ≠ "")

/-- The category part of the filter (src/app.js line 58): set only when the
category parameter is truthy (present and non-empty). -/
def categoryFilterOf (q : QueryParams) : Option String :=
  match q.category with
  | some c => if c = "" then none else some c
  | none => none

/-- Stage of GET /api/products after all parameter validation: issue the
find and answer 200 with count and products (src/app.js lines 78-80). -/
def getProductsRun (st : Store) (f : QFilter) (o : FindOptions) :
    Response × List StoreOp :=
  let products := collectionFind st f o
  (⟨200, .listOk products.length products⟩, [.opFind f o])

/-- Stage of GET /api/products handling the fields parameter (src/app.js
lines 72-76): a truthy fields string builds the projection. -/
def getProductsFields (st : Store) (q : QueryParams) (f : QFilter)
    (s : Option SortSpec) : Response × List StoreOp :=
  match q.fields with
  | some fs =>
    if fs = "" then getProductsRun st f ⟨s, none⟩
    else getProductsRun st f ⟨s, some (fieldsOf fs)⟩
  | none => getProductsRun st f ⟨s, none⟩

/-- Stage of GET /api/products handling the sort parameter (src/app.js lines
66-70): a truthy sort string must be price or -price, else 400. -/
def getProductsSort (st : Store) (q : QueryParams) (f : QFilter) :
    Response × List StoreOp :=
  match q.sortQ with
  | some s =>
    if s = "" then getProductsFields st q f none
    else if s = "price" then getProductsFields st q f (some .asc)
    else if s = "-price" then getProductsFields st q f (some .desc)
    else (⟨400, .errorMsg "sort must be \"price\" or \"-price\""⟩, [])
  | none => getProductsFields st q f none

/-- GET /api/products (src/app.js lines 50-85): build the filter from
category and minPrice, validate minPrice, then sort, fields and the find. -/
def getProducts (st : Store) (q : QueryParams) : Response × List StoreOp :=
  let f0 : QFilter := ⟨categoryFilterOf q, none⟩
  match q.minPrice with
  | some mp =>
    let m := stringToNumber mp
    if m = .nan then (⟨400, .errorMsg "minPrice must be a number"⟩, [])
    else getProductsSort st q ⟨f0.category, some m⟩
  | none => getProductsSort st q f0

/-- GET /api/products/:id (src/app.js lines 87-100): validate the id, fetch
the document, 404 when absent. -/
def getProductById (st : Store) (i : String) : Response × List StoreOp :=
  if isValidObjectId i = false then (⟨400, .errorMsg "Invalid id"⟩, [])
  else
    match collectionFindOne st i with
    | none => (⟨404, .errorMsg "Not found"⟩, [.opFindOne i])
    | some d => (⟨200, .doc d⟩, [.opFindOne i])

/-- POST /api/products (src/app.js lines 102-124): require truthy name and
category and a present price, coerce price with Number(), reject NaN, then
insert the normalized record. -/
def postProduct (st : Store) (b : ReqBody) (freshId : String) :
    Response × Store × List StoreOp :=
  if truthyOpt b.name = false ∨ b.price = none ∨ truthyOpt b.category = false then
    (⟨400, .errorMsg "Missing required fields: name, price, category"⟩, st, [])
  else
    match b.name, b.price, b.category with
    | some nameV, some priceV, some catV =>
      let p := priceV.toNumber
      if p = .nan then (⟨400, .errorMsg "price must be a number"⟩, st, [])
      else
        let rec0 : Doc := [("name", nameV), ("price", .jnum p), ("category", catV)]
        let ins := collectionInsertOne st rec0 freshId
        (⟨201, .created "Product created" ins.2⟩, ins.1, [.opInsertOne rec0])
    | _, _, _ => (⟨400, .errorMsg "Missing required fields: name, price, category"⟩, st, [])

/-- The $set update document PUT builds from the supplied fields (src/app.js
lines 137-144): name, then category, then price coerced with Number(). -/
def buildUpdate (b : ReqBody) : Doc :=
  (match b.name with | some v => [("name", v)] | none => []) ++
  (match b.category with | some v => [("category", v)] | none => []) ++
  (match b.price with | some pv => [("price", JVal.jnum pv.toNumber)] | none => [])

/-- Stage of PUT /api/products/:id after validation (src/app.js lines
146-154): issue findOneAndUpdate and branch on the truthiness of the result
wrapper value field. -/
def putRun (st : Store) (i : String) (upd : Doc) :
    Response × Store × List StoreOp :=
  let r := collectionFindOneAndUpdate st i upd
  match r.2.value with
  | none => (⟨404, .errorMsg "Not found"⟩, r.1, [.opFindOneAndUpdate i upd])
  | some d => (⟨200, .updated "Product updated" d⟩, r.1, [.opFindOneAndUpdate i upd])

/-- PUT /api/products/:id (src/app.js lines 126-160): validate the id,
require at least one supplied field, reject a NaN price, then update. -/
def putProduct (st : Store) (i : String) (b : ReqBody) :
    Response × Store × List StoreOp :=
  if isValidObjectId i = false then (⟨400, .errorMsg "Invalid id"⟩, st, [])
  else if b.name = none ∧ b.price = none ∧ b.category = none then
    (⟨400, .errorMsg "Provide at least one field: name, price, category"⟩, st, [])
  else
    match b.price with
    | some pv =>
      if pv.toNumber = .nan then (⟨400, .errorMsg "price must be a number"⟩, st, [])
      else putRun st i (buildUpdate b)
    | none => putRun st i (buildUpdate b)

/-- DELETE /api/products/:id (src/app.js lines 161-175): validate the id,
delete, 404 when nothing was deleted. -/
def deleteProduct (st : Store) (i : String) : Response × Store × List StoreOp :=
  if isValidObjectId i = false then (⟨400, .errorMsg "Invalid id"⟩, st, [])
  else
    let r := collectionDeleteOne st i
    if r.2 = 0 then (⟨404, .errorMsg "Not found"⟩, r.1, [.opDeleteOne i])
    else (⟨200, .deleted "Product deleted"⟩, r.1, [.opDeleteOne i])

/-- A routed HTTP request. -/
inductive Request where
  | root : Request
  | listProducts (q : QueryParams) : Request
  | getById (i : String) : Request
  | create (b : ReqBody) : Request
  | update (i : String) (b : ReqBody) : Request
  | remove (i : String) : Request
  | unmatched : Request
deriving DecidableEq

/-- The whole app as one step function: the shared collection handle is none
until MongoDB initialization completes; the readiness middleware (src/app.js
lines 38-43) rejects every request with 503 while it is none, and otherwise
the request is dispatched to its route handler (the unmatched-route handler
answers 404). A store-assigned fresh identifier is passed in for create. -/
def handleRequest (col : Option Store) (freshId : String) (req : Request) :
    Response × Option Store × List StoreOp :=
  match col with
  | none => (⟨503, .errorMsg "Database not ready yet. Try again in a moment."⟩, none, [])
  | some st =>
    match req with
    | .root => (⟨200, .links ["/api/products", "/api/products/:id"]⟩, some st, [])
    | .listProducts q =>
      let r := getProducts st q
      (r.1, some st, r.2)
    | .getById i =>
      let r := getProductById st i
      (r.1, some st, r.2)
    | .create b =>
      let r := postProduct st b freshId
      (r.1, some r.2.1, r.2.2)
    | .update i b =>
      let r := putProduct st i b
      (r.1, some r.2.1, r.2.2)
    | .remove i =>
      let r := deleteProduct st i
      (r.1, some r.2.1, r.2.2)
    | .unmatched => (⟨404, .errorMsg "API endpoint not found"⟩, some st, [])

/-- A well-formed persisted product document: the four product fields are
present and the price is a number other than NaN. -/
def goodDoc (d : Doc) : Prop :=
  (∃ v, lookupField d "_id" = some v) ∧
  (∃ v, lookupField d "name" = some v) ∧
  (∃ p, lookupField d "price" = some (.jnum p) ∧ p ≠ JNum.nan) ∧
  (∃ v, lookupField d "category" = some v)

/-- Every document of the store is well formed. -/
def goodStore (st : Store) : Prop := ∀ d ∈ st, goodDoc d

/-- Sort specification the list handler derives from the sort parameter on
paths that reach the store. -/
def sortSpecOf : Option String → Option SortSpec
  | some s => if s = "price" then some .asc else if s = "-price" then some .desc else none
  | none => none

/-- Projection the list handler derives from the fields parameter on paths
that reach the store. -/
def projectionOf : Option String → Option (List String)
  | some fs => if fs = "" then none else some (fieldsOf fs)
  | none => none

lemma getProductsFields_eq (st : Store) (q : QueryParams) (f : QFilter) (s : Option SortSpec) :
    getProductsFields st q f s = getProductsRun st f ⟨s, projectionOf q.fields⟩ := by
  cases hf : q.fields with
  | none => simp [getProductsFields, projectionOf, hf]
  | some fs =>
    by_cases h : fs = "" <;> simp [getProductsFields, projectionOf, hf, h]

lemma getProductsSort_eq (st : Store) (q : QueryParams) (f : QFilter) :
    getProductsSort st q f =
      getProductsRun st f ⟨sortSpecOf q.sortQ, projectionOf q.fields⟩
    ∨ ∃ s, q.sortQ = some s ∧ s ≠ "" ∧ s ≠ "price" ∧ s ≠ "-price" ∧
        getProductsSort st q f =
          (⟨400, .errorMsg "sort must be \"price\" or \"-price\""⟩, []) := by
  cases hs : q.sortQ with
  | none => left; simp [getProductsSort, sortSpecOf, hs, getProductsFields_eq]
  | some s =>
    by_cases h1 : s = ""
    · left; simp [getProductsSort, sortSpecOf, hs, h1, getProductsFields_eq]
    · by_cases h2 : s = "price"
      · left; simp [getProductsSort, sortSpecOf, hs, h1, h2, getProductsFields_eq]
      · by_cases h3 : s = "-price"
        · left; simp [getProductsSort, sortSpecOf, hs, h1, h2, h3, getProductsFields_eq]
        · right; exact ⟨s, rfl, h1, h2, h3, by simp [getProductsSort, hs, h1, h2, h3]⟩

/-- Every run of the list handler either answers 400 with no store call, or
issues exactly one find with the filter, sort and projection derived from
the query parameters. -/
lemma getProducts_cases (st : Store) (q : QueryParams) :
    getProducts st q =
      getProductsRun st ⟨categoryFilterOf q, Option.map stringToNumber q.minPrice⟩
        ⟨sortSpecOf q.sortQ, projectionOf q.fields⟩
    ∨ ∃ msg, getProducts st q = (⟨400, .errorMsg msg⟩, []) := by
  cases hm : q.minPrice with
  | none =>
    rcases getProductsSort_eq st q ⟨categoryFilterOf q, none⟩ with h | ⟨s, _, _, _, _, h⟩
    · left; simp [getProducts, hm, h]
    · right
      refine ⟨"sort must be \"price\" or \"-price\"", ?_⟩
      simp [getProducts, hm, h]
  | some mp =>
    by_cases hnan : stringToNumber mp = .nan
    · right
      refine ⟨"minPrice must be a number", ?_⟩
      simp [getProducts, hm, hnan]
    · rcases getProductsSort_eq st q ⟨categoryFilterOf q, some (stringToNumber mp)⟩ with
        h | ⟨s, _, _, _, _, h⟩
      · left; simp [getProducts, hm, hnan, h]
      · right
        refine ⟨"sort must be \"price\" or \"-price\"", ?_⟩
        simp [getProducts, hm, hnan, h]

/-- C9: until the shared collection handle is initialized, every request on
every route is rejected with HTTP 503 and the not-ready body, and no route
handler or store operation runs. -/
theorem c9_store_readiness_gate (freshId : String) (req : Request) :
    handleRequest none freshId req =
      (⟨503, Body.errorMsg "Database not ready yet. Try again in a moment."⟩, none, []) := rfl

/-- C10: in every successful list response, the count field equals the
number of elements of the products array. -/
theorem c10_count_eq_length (st : Store) (q : QueryParams) (n : Nat) (ps : List Doc)
    (h : (getProducts st q).1.body = Body.listOk n ps) : n = ps.length := by
  rcases getProducts_cases st q with hc | ⟨msg, hc⟩
  · rw [hc] at h
    simp only [getProductsRun, Body.listOk.injEq] at h
    obtain ⟨h1, h2⟩ := h
    subst h2
    exact h1.symm
  · rw [hc] at h
    simp at h

theorem c10_count_eq_length_witness : 0 = ([] : List Doc).length :=
  c10_count_eq_length [] ⟨none, none, none, none⟩ 0 [] (by rfl)

/-- C2 counterexample: the minPrice value Infinity does not parse as a
finite number, yet the handler does not answer 400: Number coercion yields
Infinity, only NaN is rejected, and the request succeeds with 200. -/
theorem c2_min_price_counterexample :
    JNum.isFinite (stringToNumber "Infinity") = false ∧
    (getProducts [] ⟨none, some "Infinity", none, none⟩).1.status = 200 := by decide

/-- C3 counterexample: with the fields parameter present but empty, the
named-field list is empty, yet no projection is built (empty string is
falsy), so a returned object still carries fields outside that list. -/
theorem c3_fields_counterexample :
    fieldsOf "" = [] ∧
    (getProducts [[("name", JVal.jstr "a")]] ⟨none, none, none, some ""⟩).1 =
      ⟨200, Body.listOk 1 [[("name", JVal.jstr "a")]]⟩ := by decide

/-- C4 counterexample: create accepts a negative price and update accepts an
empty category, so a persisted product violates the non-negative-price and
non-empty-text parts of the stated invariant. -/
theorem c4_invariant_counterexample :
    (postProduct [] ⟨some (.jstr "Widget"), some (.jnum (.fin (-5) 0)), some (.jstr "misc")⟩
        "aaaaaaaaaaaaaaaaaaaaaaaa").1.status = 201 ∧
    (putProduct
        (postProduct [] ⟨some (.jstr "Widget"), some (.jnum (.fin (-5) 0)), some (.jstr "misc")⟩
          "aaaaaaaaaaaaaaaaaaaaaaaa").2.1
        "aaaaaaaaaaaaaaaaaaaaaaaa" ⟨none, none, some (.jstr "")⟩).1.status = 200 ∧
    (putProduct
        (postProduct [] ⟨some (.jstr "Widget"), some (.jnum (.fin (-5) 0)), some (.jstr "misc")⟩
          "aaaaaaaaaaaaaaaaaaaaaaaa").2.1
        "aaaaaaaaaaaaaaaaaaaaaaaa" ⟨none, none, some (.jstr "")⟩).2.1 =
      [[("_id", .jstr "aaaaaaaaaaaaaaaaaaaaaaaa"), ("name", .jstr "Widget"),
        ("price", .jnum (.fin (-5) 0)), ("category", .jstr "")]] ∧
    JNum.leb (.fin 0 0) (.fin (-5) 0) = false := by decide

/-- C5 counterexample: a price of "Infinity" does not parse as a finite
number, yet create accepts it with 201 and inserts an infinite price. -/
theorem c5_create_counterexample :
    JNum.isFinite (JVal.toNumber (.jstr "Infinity")) = false ∧
    (postProduct [] ⟨some (.jstr "A"), some (.jstr "Infinity"), some (.jstr "B")⟩
        "bbbbbbbbbbbbbbbbbbbbbbbb").1.status = 201 ∧
    (postProduct [] ⟨some (.jstr "A"), some (.jstr "Infinity"), some (.jstr "B")⟩
        "bbbbbbbbbbbbbbbbbbbbbbbb").2.1 =
      [[("_id", .jstr "bbbbbbbbbbbbbbbbbbbbbbbb"), ("name", .jstr "A"),
        ("price", .jnum .inf), ("category", .jstr "B")]] := by decide

/-- C6 counterexample: with a valid identifier and a price of "Infinity"
(not a finite number), the update is not rejected with 400: the handler
calls the store and answers 404 on an empty store. -/
theorem c6_put_counterexample :
    JNum.isFinite (JVal.toNumber (.jstr "Infinity")) = false ∧
    (putProduct [] "cccccccccccccccccccccccc" ⟨none, some (.jstr "Infinity"), none⟩).1.status = 404 ∧
    (putProduct [] "cccccccccccccccccccccccc" ⟨none, some (.jstr "Infinity"), none⟩).2.2 ≠ [] := by decide

/-- C8 counterexample: a present but empty sort value is neither price nor
-price, yet the handler does not answer 400: the empty string is falsy, so
the check is skipped and the request succeeds with 200. -/
theorem c8_sort_counterexample :
    ("" : String) ≠ "price" ∧ ("" : String) ≠ "-price" ∧
    (getProducts [] ⟨none, none, some "", none⟩).1.status = 200 := by decide

lemma lookupField_nil (k : String) : lookupField [] k = none := rfl

lemma lookupField_cons (k k' : String) (v : JVal) (d : Doc) :
    lookupField ((k', v) :: d) k = if k' = k then some v else lookupField d k := by
  by_cases h : k' = k <;> simp [lookupField, h]

lemma setFields_cons (d : Doc) (kv : String × JVal) (rest : Doc) :
    setFields d (kv :: rest) = setFields (setField d kv.1 kv.2) rest := rfl

lemma lookupField_eq_none_of_any_false (d : Doc) (k : String)
    (h : d.any (fun kv => kv.1 = k) = false) : lookupField d k = none := by
  induction d with
  | nil => rfl
  | cons kv rest ih =>
    obtain ⟨k0, v0⟩ := kv
    have hk : ¬(k0 = k) := by
      intro hc
      simp [hc] at h
    have h' : rest.any (fun kv => kv.1 = k) = false := by
      simp only [List.any_cons, Bool.or_eq_false_iff] at h
      exact h.2
    simp [lookupField_cons, hk, ih h']

lemma lookupField_map_set (d : Doc) (k : String) (v : JVal)
    (h : d.any (fun kv => kv.1 = k) = true) :
    lookupField (d.map (fun kv => if kv.1 = k then (k, v) else kv)) k = some v := by
  induction d with
  | nil => simp at h
  | cons kv rest ih =>
    obtain ⟨k0, v0⟩ := kv
    by_cases hk : k0 = k
    · simp [hk, lookupField_cons]
    · have h' : rest.any (fun kv => kv.1 = k) = true := by
        simp only [List.any_cons] at h
        rcases Bool.or_eq_true_iff.mp h with hh | hh
        · exact absurd (of_decide_eq_true hh) hk
        · exact hh
      simp [hk, lookupField_cons, ih h']

lemma lookupField_map_set_ne (d : Doc) (k k' : String) (v : JVal) (h : k' ≠ k) :
    lookupField (d.map (fun kv => if kv.1 = k' then (k', v) else kv)) k = lookupField d k := by
  induction d with
  | nil => simp
  | cons kv rest ih =>
    obtain ⟨k0, v0⟩ := kv
    by_cases hk : k0 = k'
    · have hnk : ¬(k0 = k) := by rw [hk]; exact h
      simp [hk, lookupField_cons, h, hnk, ih]
    · by_cases hkk : k0 = k
      · have hsym : ¬(k = k') := fun hc => h hc.symm
        simp [hk, hkk, lookupField_cons, hsym]
      · simp [hk, hkk, lookupField_cons, ih]

lemma lookupField_append_single (d : Doc) (k : String) (v : JVal)
    (h : lookupField d k = none) :
    lookupField (d ++ [(k, v)]) k = some v := by
  induction d with
  | nil => simp [lookupField_cons, lookupField_nil]
  | cons kv rest ih =>
    obtain ⟨k0, v0⟩ := kv
    rw [lookupField_cons] at h
    by_cases hk : k0 = k
    · rw [if_pos hk] at h
      exact absurd h (by simp)
    · rw [if_neg hk] at h
      simp [lookupField_cons, hk, ih h]

lemma lookupField_append_single_ne (d : Doc) (k k' : String) (v : JVal) (h : k' ≠ k) :
    lookupField (d ++ [(k', v)]) k = lookupField d k := by
  induction d with
  | nil => simp [lookupField_cons, h, lookupField_nil]
  | cons kv rest ih =>
    obtain ⟨k0, v0⟩ := kv
    by_cases hk : k0 = k <;> simp [lookupField_cons, hk, ih]

lemma lookupField_setField_same (d : Doc) (k : String) (v : JVal) :
    lookupField (setField d k v) k = some v := by
  by_cases h : d.any (fun kv => kv.1 = k) = true
  · simp [setField, h, lookupField_map_set d k v h]
  · have h' : d.any (fun kv => kv.1 = k) = false := Bool.eq_false_iff.mpr h
    simp only [setField, h', Bool.false_eq_true, if_false]
    exact lookupField_append_single d k v (lookupField_eq_none_of_any_false d k h')

lemma lookupField_setField_ne (d : Doc) (k k' : String) (v : JVal) (h : k' ≠ k) :
    lookupField (setField d k' v) k = lookupField d k := by
  by_cases ha : d.any (fun kv => kv.1 = k') = true
  · simp [setField, ha, lookupField_map_set_ne d k k' v h]
  · have h' : d.any (fun kv => kv.1 = k') = false := Bool.eq_false_iff.mpr ha
    simp only [setField, h', Bool.false_eq_true, if_false]
    exact lookupField_append_single_ne d k k' v h

lemma lookupField_setFields_not_mem (upd : Doc) (d : Doc) (k : String)
    (h : k ∉ upd.map Prod.fst) :
    lookupField (setFields d upd) k = lookupField d k := by
  induction upd generalizing d with
  | nil => rfl
  | cons kv rest ih =>
    simp only [List.map_cons, List.mem_cons] at h
    push_neg at h
    rw [setFields_cons, ih _ h.2, lookupField_setField_ne _ _ _ _ (fun hc => h.1 hc.symm)]

lemma lookupField_setFields_mem (upd : Doc) (d : Doc) (k : String) (v : JVal)
    (hmem : (k, v) ∈ upd) (hnd : (upd.map Prod.fst).Nodup) :
    lookupField (setFields d upd) k = some v := by
  induction upd generalizing d with
  | nil => simp at hmem
  | cons kv rest ih =>
    obtain ⟨k0, v0⟩ := kv
    rw [List.map_cons] at hnd
    have hnd1 := (List.nodup_cons.mp hnd).1
    have hnd2 := (List.nodup_cons.mp hnd).2
    rcases List.mem_cons.mp hmem with heq | hrest
    · obtain ⟨hk0, hv0⟩ := Prod.mk.injEq .. ▸ heq.symm
      subst hk0
      subst hv0
      rw [setFields_cons, lookupField_setFields_not_mem rest _ k0 hnd1]
      exact lookupField_setField_same d k0 v0
    · rw [setFields_cons]
      exact ih _ hrest hnd2

lemma updateFirst_of_find?_none (p : Doc → Bool) (f : Doc → Doc) (st : Store)
    (h : st.find? p = none) : updateFirst p f st = st := by
  induction st with
  | nil => rfl
  | cons d ds ih =>
    by_cases hd : p d
    · rw [List.find?_cons_of_pos _ hd] at h
      exact absurd h (by simp)
    · rw [List.find?_cons_of_neg _ (by simpa using hd)] at h
      simp [updateFirst, hd, ih h]

lemma mem_updateFirst (p : Doc → Bool) (f : Doc → Doc) (st : Store) (d : Doc)
    (hd : d ∈ updateFirst p f st) : d ∈ st ∨ ∃ e, e ∈ st ∧ d = f e := by
  induction st with
  | nil => simp [updateFirst] at hd
  | cons e es ih =>
    by_cases he : p e
    · simp only [updateFirst, he, if_true, List.mem_cons] at hd
      rcases hd with h1 | h2
      · right; exact ⟨e, by simp, h1⟩
      · left; simp [h2]
    · simp only [updateFirst, he, Bool.false_eq_true, if_false, List.mem_cons] at hd
      rcases hd with h1 | h2
      · left; simp [h1]
      · rcases ih h2 with h3 | ⟨e', he', hfe⟩
        · left; simp [h3]
        · right; exact ⟨e', by simp [he'], hfe⟩

lemma find?_removeFirst_of_unique (p : Doc → Bool) (st : Store)
    (h : (st.filter p).length ≤ 1) : (removeFirst p st).find? p = none := by
  induction st with
  | nil => rfl
  | cons d ds ih =>
    by_cases hd : p d
    · have hf : ds.filter p = [] := by
        rw [List.filter_cons_of_pos hd] at h
        simp only [List.length_cons] at h
        exact List.length_eq_zero.mp (by omega)
      have hnone : ds.find? p = none := by
        rw [List.find?_eq_none]
        intro x hx hpx
        have hmem : x ∈ ds.filter p := List.mem_filter.mpr ⟨hx, hpx⟩
        simp [hf] at hmem
      simp [removeFirst, hd, hnone]
    · have h' : (ds.filter p).length ≤ 1 := by
        rwa [List.filter_cons_of_neg (by simpa using hd)] at h
      simp only [removeFirst, hd, Bool.false_eq_true, if_false]
      rw [List.find?_cons_of_neg _ (by simpa using hd)]
      exact ih h'

lemma buildUpdate_keys_nodup (b : ReqBody) : ((buildUpdate b).map Prod.fst).Nodup := by
  rcases b with ⟨n, p, c⟩
  cases n <;> cases p <;> cases c <;> simp [buildUpdate]

lemma buildUpdate_keys (b : ReqBody) (k : String) :
    k ∈ (buildUpdate b).map Prod.fst ↔
      (k = "name" ∧ b.name ≠ none) ∨ (k = "category" ∧ b.category ≠ none) ∨
      (k = "price" ∧ b.price ≠ none) := by
  rcases b with ⟨n, p, c⟩
  cases n <;> cases p <;> cases c <;> simp [buildUpdate]

lemma putProduct_valid (st : Store) (i : String) (b : ReqBody)
    (hid : isValidObjectId i = true)
    (hsome : ¬(b.name = none ∧ b.price = none ∧ b.category = none))
    (hp : ∀ pv, b.price = some pv → pv.toNumber ≠ JNum.nan) :
    putProduct st i b = putRun st i (buildUpdate b) := by
  rw [putProduct, if_neg (by simp [hid]), if_neg hsome]
  cases hb : b.price with
  | none => rfl
  | some pv => simp [hp pv hb]

/-- C1: on a PUT with a valid identifier, at least one supplied field and a
price (when supplied) that parses as a number, the handler issues exactly
one findOneAndUpdate; when a product with that identifier exists the
response is 200 with the message and the updated product, the update changes
exactly the supplied fields; when none exists the response is 404 with the
Not found body, detected through the result wrapper value field being
null. -/
theorem c1_put_found_vs_not_found (st : Store) (i : String) (b : ReqBody)
    (hid : isValidObjectId i = true)
    (hsome : ¬(b.name = none ∧ b.price = none ∧ b.category = none))
    (hp : ∀ pv, b.price = some pv → pv.toNumber ≠ JNum.nan) :
    (∀ d, st.find? (idMatches i) = some d →
       putProduct st i b =
         (⟨200, .updated "Product updated" (setFields d (buildUpdate b))⟩,
          updateFirst (idMatches i) (fun e => setFields e (buildUpdate b)) st,
          [.opFindOneAndUpdate i (buildUpdate b)])
       ∧ (∀ k, k ∉ (buildUpdate b).map Prod.fst →
            lookupField (setFields d (buildUpdate b)) k = lookupField d k)
       ∧ (∀ k v, (k, v) ∈ buildUpdate b →
            lookupField (setFields d (buildUpdate b)) k = some v))
  ∧ (st.find? (idMatches i) = none →
       putProduct st i b =
         (⟨404, .errorMsg "Not found"⟩, st, [.opFindOneAndUpdate i (buildUpdate b)])) := by
  have hval := putProduct_valid st i b hid hsome hp
  constructor
  · intro d hd
    refine ⟨?_, ?_, ?_⟩
    · rw [hval]
      simp [putRun, collectionFindOneAndUpdate, hd]
    · intro k hk
      exact lookupField_setFields_not_mem _ _ _ hk
    · intro k v hkv
      exact lookupField_setFields_mem _ _ _ _ hkv (buildUpdate_keys_nodup b)
  · intro hnone
    rw [hval]
    simp [putRun, collectionFindOneAndUpdate, hnone,
      updateFirst_of_find?_none _ _ _ hnone]

theorem c1_put_found_vs_not_found_witness :
    (putProduct
        [[("_id", JVal.jstr "0123456789abcdef01234567"), ("name", JVal.jstr "A"),
          ("price", JVal.jnum (.fin 3 0)), ("category", JVal.jstr "c")]]
        "0123456789abcdef01234567" ⟨none, none, some (.jstr "x")⟩).1 =
      ⟨200, Body.updated "Product updated"
        [("_id", JVal.jstr "0123456789abcdef01234567"), ("name", JVal.jstr "A"),
         ("price", JVal.jnum (.fin 3 0)), ("category", JVal.jstr "x")]⟩ := by
  have h := (c1_put_found_vs_not_found
    [[("_id", JVal.jstr "0123456789abcdef01234567"), ("name", JVal.jstr "A"),
      ("price", JVal.jnum (.fin 3 0)), ("category", JVal.jstr "c")]]
    "0123456789abcdef01234567" ⟨none, none, some (.jstr "x")⟩
    (by decide) (by decide) (by decide)).1
    [("_id", JVal.jstr "0123456789abcdef01234567"), ("name", JVal.jstr "A"),
     ("price", JVal.jnum (.fin 3 0)), ("category", JVal.jstr "c")] (by decide)
  rw [h.1]
  decide

/-- C2 (amended): a present minPrice must parse as a number other than NaN
(Number coercion; infinite values are accepted), otherwise the response is
400; when a find is issued its filter carries the parsed lower bound and
only matches documents whose price is a number at least that bound; with
products priced 5, 10, 15 the request minPrice=10 returns exactly the 10
and 15 priced products. -/
theorem c2_min_price_filter (st : Store) (q : QueryParams) (mp : String)
    (hq : q.minPrice = some mp) :
    (stringToNumber mp = JNum.nan →
       getProducts st q = (⟨400, .errorMsg "minPrice must be a number"⟩, []))
  ∧ (∀ f o, (getProducts st q).2 = [StoreOp.opFind f o] →
       f.minPrice = some (stringToNumber mp) ∧
       ∀ d, matchesFilter f d = true →
         ∃ p, lookupField d "price" = some (.jnum p) ∧
           JNum.leb (stringToNumber mp) p = true)
  ∧ (getProducts
       [[("price", JVal.jnum (.fin 5 0))], [("price", JVal.jnum (.fin 10 0))],
        [("price", JVal.jnum (.fin 15 0))]]
       ⟨none, some "10", none, none⟩).1 =
     ⟨200, Body.listOk 2
       [[("price", JVal.jnum (.fin 10 0))], [("price", JVal.jnum (.fin 15 0))]]⟩ := by
  refine ⟨?_, ?_, by decide⟩
  · intro hnan
    simp [getProducts, hq, hnan]
  · intro f o h
    rcases getProducts_cases st q with hc | ⟨msg, hc⟩
    · rw [hc] at h
      simp only [getProductsRun, List.cons.injEq, StoreOp.opFind.injEq] at h
      obtain ⟨⟨hf, ho⟩, -⟩ := h
      subst hf
      constructor
      · simp [hq]
      · intro d hd
        simp only [matchesFilter, Bool.and_eq_true] at hd
        obtain ⟨-, h2⟩ := hd
        simp only [hq, Option.map_some'] at h2
        cases hl : lookupField d "price" with
        | none => rw [hl] at h2; simp at h2
        | some v =>
          cases v with
          | jnum p =>
            refine ⟨p, rfl, ?_⟩
            rw [hl] at h2
            simpa using h2
          | jstr s => rw [hl] at h2; simp at h2
          | jbool bb => rw [hl] at h2; simp at h2
          | jnull => rw [hl] at h2; simp at h2
    · rw [hc] at h
      simp at h

theorem c2_min_price_filter_witness :
    getProducts [] ⟨none, some "abc", none, none⟩ =
      (⟨400, Body.errorMsg "minPrice must be a number"⟩, []) :=
  (c2_min_price_filter [] ⟨none, some "abc", none, none⟩ "abc" rfl).1 (by decide)

/-- C3 (amended): with the fields parameter present and non-empty, it is
split on commas, each segment trimmed, empty segments dropped, and the
issued find carries a projection of exactly the named fields; every
document of a successful response then carries only fields from that
list. -/
theorem c3_fields_projection (st : Store) (q : QueryParams) (fs : String)
    (hf : q.fields = some fs) (hne : fs ≠ "") :
    (∀ f o, (getProducts st q).2 = [StoreOp.opFind f o] →
       o.projection = some (fieldsOf fs))
  ∧ (∀ n ps, (getProducts st q).1.body = Body.listOk n ps →
       ∀ d ∈ ps, ∀ kv ∈ d, kv.1 ∈ fieldsOf fs) := by
  constructor
  · intro f o h
    rcases getProducts_cases st q with hc | ⟨msg, hc⟩
    · rw [hc] at h
      simp only [getProductsRun, List.cons.injEq, StoreOp.opFind.injEq] at h
      obtain ⟨⟨hfe, hoe⟩, -⟩ := h
      rw [← hoe]
      simp [projectionOf, hf, hne]
    · rw [hc] at h
      simp at h
  · intro n ps h d hd kv hkv
    rcases getProducts_cases st q with hc | ⟨msg, hc⟩
    · rw [hc] at h
      simp only [getProductsRun, Body.listOk.injEq] at h
      obtain ⟨-, hps⟩ := h
      subst hps
      rw [collectionFind] at hd
      obtain ⟨d0, hd0, hdd⟩ := List.mem_map.mp hd
      have hproj : projectionOf q.fields = some (fieldsOf fs) := by
        simp [projectionOf, hf, hne]
      rw [hproj] at hdd
      rw [← hdd] at hkv
      simp only [applyProjection] at hkv
      have := (List.mem_filter.mp hkv).2
      simpa using this
    · rw [hc] at h
      simp at h

theorem c3_fields_projection_witness :
    ("name" : String) ∈ fieldsOf "name,price" :=
  (c3_fields_projection
    [[("_id", JVal.jstr "0123456789abcdef01234567"), ("name", JVal.jstr "A"),
      ("price", JVal.jnum (.fin 3 0)), ("category", JVal.jstr "c")]]
    ⟨none, none, none, some "name,price"⟩ "name,price" rfl (by decide)).2
    1 [[("name", JVal.jstr "A"), ("price", JVal.jnum (.fin 3 0))]] (by decide)
    [("name", JVal.jstr "A"), ("price", JVal.jnum (.fin 3 0))] (by decide)
    ("name", JVal.jstr "A") (by decide)

/-- C8 (amended): a present, non-empty sort value other than price or
-price yields 400 with no store call; sort=price yields an ascending and
sort=-price a descending price sort specification on the issued find; an
absent or empty sort parameter imposes no sort constraint. -/
theorem c8_sort_validation (st : Store) (q : QueryParams) :
    (∀ s, q.sortQ = some s → s ≠ "" → s ≠ "price" → s ≠ "-price" →
       (getProducts st q).1.status = 400 ∧ (getProducts st q).2 = [])
  ∧ (q.sortQ = some "price" →
       ∀ f o, (getProducts st q).2 = [StoreOp.opFind f o] →
         o.sortSpec = some SortSpec.asc)
  ∧ (q.sortQ = some "-price" →
       ∀ f o, (getProducts st q).2 = [StoreOp.opFind f o] →
         o.sortSpec = some SortSpec.desc)
  ∧ ((q.sortQ = none ∨ q.sortQ = some "") →
       ∀ f o, (getProducts st q).2 = [StoreOp.opFind f o] →
         o.sortSpec = none) := by
  have hsort : ∀ (hyp : Option SortSpec → Prop),
      hyp (sortSpecOf q.sortQ) →
      ∀ f o, (getProducts st q).2 = [StoreOp.opFind f o] → hyp o.sortSpec := by
    intro hyp hh f o h
    rcases getProducts_cases st q with hc | ⟨msg, hc⟩
    · rw [hc] at h
      simp only [getProductsRun, List.cons.injEq, StoreOp.opFind.injEq] at h
      obtain ⟨⟨-, hoe⟩, -⟩ := h
      rw [← hoe]
      exact hh
    · rw [hc] at h
      simp at h
  refine ⟨?_, ?_, ?_, ?_⟩
  · intro s hs h1 h2 h3
    cases hm : q.minPrice with
    | none => simp [getProducts, hm, getProductsSort, hs, h1, h2, h3]
    | some mp =>
      by_cases hnan : stringToNumber mp = JNum.nan
      · simp [getProducts, hm, hnan]
      · simp [getProducts, hm, hnan, getProductsSort, hs, h1, h2, h3]
  · intro hs
    exact hsort (fun x => x = some SortSpec.asc) (by simp [sortSpecOf, hs])
  · intro hs
    exact hsort (fun x => x = some SortSpec.desc) (by simp [sortSpecOf, hs])
  · intro hs
    rcases hs with hs | hs <;>
      exact hsort (fun x => x = none) (by simp [sortSpecOf, hs])

theorem c8_sort_validation_witness :
    (getProducts [] ⟨none, none, some "foo", none⟩).1.status = 400 ∧
    (getProducts [] ⟨none, none, some "foo", none⟩).2 = [] :=
  (c8_sort_validation [] ⟨none, none, some "foo", none⟩).1 "foo" rfl
    (by decide) (by decide) (by decide)

/-- C5 (amended): create answers 400 MissingField when name is empty or
absent, price is absent, or category is empty or absent; with non-empty
text name and category and a present price, a NaN price (after Number
coercion; infinite values are accepted) answers 400 InvalidType, and
otherwise exactly the normalized record {name, price as number, category}
is inserted and the response is 201 with the message and new id. -/
theorem c5_create_validation (st : Store) (b : ReqBody) (freshId : String) :
    ((b.name = none ∨ b.name = some (.jstr "") ∨ b.price = none ∨
      b.category = none ∨ b.category = some (.jstr "")) →
       postProduct st b freshId =
         (⟨400, .errorMsg "Missing required fields: name, price, category"⟩, st, []))
  ∧ (∀ nv pv cv, b = ⟨some (.jstr nv), some pv, some (.jstr cv)⟩ →
       nv ≠ "" → cv ≠ "" →
       (pv.toNumber = JNum.nan →
          postProduct st b freshId =
            (⟨400, .errorMsg "price must be a number"⟩, st, []))
       ∧ (pv.toNumber ≠ JNum.nan →
          postProduct st b freshId =
            (⟨201, .created "Product created" freshId⟩,
             st ++ [[("_id", JVal.jstr freshId), ("name", .jstr nv),
                     ("price", .jnum pv.toNumber), ("category", .jstr cv)]],
             [.opInsertOne [("name", .jstr nv), ("price", .jnum pv.toNumber),
                            ("category", .jstr cv)]]))) := by
  constructor
  · intro hcase
    have hcond : truthyOpt b.name = false ∨ b.price = none ∨
        truthyOpt b.category = false := by
      rcases hcase with h | h | h | h | h
      · left; simp [truthyOpt, h]
      · left; simp [truthyOpt, h, JVal.truthy]
      · right; left; exact h
      · right; right; simp [truthyOpt, h]
      · right; right; simp [truthyOpt, h, JVal.truthy]
    simp only [postProduct]
    rw [if_pos hcond]
  · rintro nv pv cv rfl hn hc
    have hcond : ¬(truthyOpt (some (JVal.jstr nv)) = false ∨ (some pv : Option JVal) = none ∨
        truthyOpt (some (JVal.jstr cv)) = false) := by
      simp [truthyOpt, JVal.truthy, hn, hc]
    constructor
    · intro hnan
      simp only [postProduct]
      rw [if_neg hcond]
      simp [hnan]
    · intro hnan
      simp only [postProduct]
      rw [if_neg hcond]
      simp [hnan, collectionInsertOne]

theorem c5_create_validation_witness :
    postProduct [] ⟨some (.jstr "A"), some (.jnum (.fin 2 0)), some (.jstr "B")⟩
        "0123456789abcdef01234567" =
      (⟨201, Body.created "Product created" "0123456789abcdef01234567"⟩,
       [[("_id", JVal.jstr "0123456789abcdef01234567"), ("name", JVal.jstr "A"),
         ("price", JVal.jnum (.fin 2 0)), ("category", JVal.jstr "B")]],
       [StoreOp.opInsertOne [("name", JVal.jstr "A"), ("price", JVal.jnum (.fin 2 0)),
        ("category", JVal.jstr "B")]]) := by
  have h := ((c5_create_validation []
    ⟨some (.jstr "A"), some (.jnum (.fin 2 0)), some (.jstr "B")⟩
    "0123456789abcdef01234567").2 "A" (.jnum (.fin 2 0)) "B" rfl
    (by decide) (by decide)).2 (by decide)
  simpa [JVal.toNumber] using h

lemma putRun_trace (st : Store) (i : String) (upd : Doc) :
    (putRun st i upd).2.2 = [StoreOp.opFindOneAndUpdate i upd] := by
  rcases hf : st.find? (idMatches i) with _ | d <;>
    simp [putRun, collectionFindOneAndUpdate, hf]

lemma putRun_store (st : Store) (i : String) (upd : Doc) :
    (putRun st i upd).2.1 =
      updateFirst (idMatches i) (fun e => setFields e upd) st := by
  rcases hf : st.find? (idMatches i) with _ | d <;>
    simp [putRun, collectionFindOneAndUpdate, hf]

/-- C6 (amended): PUT validation: an invalid identifier answers 400
InvalidIdentifier; a body supplying none of name, price, category answers
400 MissingField; a supplied price that coerces to NaN (infinite values
are accepted) answers 400 InvalidType; each of these failures leaves the
store untouched and issues no store call; on the remaining inputs exactly
one findOneAndUpdate is issued whose update set holds exactly the supplied
fields. -/
theorem c6_put_validation (st : Store) (i : String) (b : ReqBody) :
    (isValidObjectId i = false →
       putProduct st i b = (⟨400, .errorMsg "Invalid id"⟩, st, []))
  ∧ (isValidObjectId i = true →
       b.name = none ∧ b.price = none ∧ b.category = none →
       putProduct st i b =
         (⟨400, .errorMsg "Provide at least one field: name, price, category"⟩, st, []))
  ∧ (isValidObjectId i = true → ∀ pv, b.price = some pv → pv.toNumber = JNum.nan →
       putProduct st i b = (⟨400, .errorMsg "price must be a number"⟩, st, []))
  ∧ (isValidObjectId i = true →
       ¬(b.name = none ∧ b.price = none ∧ b.category = none) →
       (∀ pv, b.price = some pv → pv.toNumber ≠ JNum.nan) →
       (putProduct st i b).2.2 = [StoreOp.opFindOneAndUpdate i (buildUpdate b)]
       ∧ ∀ k, (k ∈ (buildUpdate b).map Prod.fst ↔
            (k = "name" ∧ b.name ≠ none) ∨ (k = "category" ∧ b.category ≠ none) ∨
            (k = "price" ∧ b.price ≠ none))) := by
  refine ⟨?_, ?_, ?_, ?_⟩
  · intro h
    simp only [putProduct]
    rw [if_pos h]
  · intro hid hall
    simp only [putProduct]
    rw [if_neg (by simp [hid]), if_pos hall]
  · intro hid pv hb hnan
    have hsome : ¬(b.name = none ∧ b.price = none ∧ b.category = none) := by
      rintro ⟨-, h2, -⟩
      rw [hb] at h2
      exact Option.noConfusion h2
    simp only [putProduct]
    rw [if_neg (by simp [hid]), if_neg hsome]
    simp [hb, hnan]
  · intro hid hsome hp
    rw [putProduct_valid st i b hid hsome hp]
    exact ⟨putRun_trace st i (buildUpdate b), fun k => buildUpdate_keys b k⟩

theorem c6_put_validation_witness :
    putProduct [] "not-an-id" ⟨none, none, none⟩ =
      (⟨400, Body.errorMsg "Invalid id"⟩, [], []) :=
  (c6_put_validation [] "not-an-id" ⟨none, none, none⟩).1 (by decide)

/-- C7: for GET and DELETE by id, an identifier not in the 24-hex store
format yields 400 (not 404); a valid identifier naming no record yields
404 with the Not found body; deleting an existing id twice (identifiers
are unique in the store) yields 200 first and 404 second. -/
theorem c7_id_routes (st : Store) (i : String) :
    (isValidObjectId i = false →
       getProductById st i = (⟨400, .errorMsg "Invalid id"⟩, []) ∧
       deleteProduct st i = (⟨400, .errorMsg "Invalid id"⟩, st, []))
  ∧ (isValidObjectId i = true → st.find? (idMatches i) = none →
       getProductById st i = (⟨404, .errorMsg "Not found"⟩, [.opFindOne i]) ∧
       deleteProduct st i = (⟨404, .errorMsg "Not found"⟩, st, [.opDeleteOne i]))
  ∧ (isValidObjectId i = true → (st.filter (idMatches i)).length ≤ 1 →
       ∀ d, st.find? (idMatches i) = some d →
         (deleteProduct st i).1.status = 200 ∧
         (deleteProduct (deleteProduct st i).2.1 i).1 =
           ⟨404, .errorMsg "Not found"⟩) := by
  refine ⟨?_, ?_, ?_⟩
  · intro h
    constructor
    · simp only [getProductById]; rw [if_pos h]
    · simp only [deleteProduct]; rw [if_pos h]
  · intro hid hnone
    constructor
    · simp [getProductById, hid, collectionFindOne, hnone]
    · simp [deleteProduct, hid, collectionDeleteOne, hnone]
  · intro hid huniq d hd
    have h1 : deleteProduct st i =
        (⟨200, .deleted "Product deleted"⟩, removeFirst (idMatches i) st,
         [.opDeleteOne i]) := by
      simp [deleteProduct, hid, collectionDeleteOne, hd]
    have h2 : (removeFirst (idMatches i) st).find? (idMatches i) = none :=
      find?_removeFirst_of_unique _ _ huniq
    constructor
    · rw [h1]
    · rw [h1]
      simp [deleteProduct, hid, collectionDeleteOne, h2]

theorem c7_id_routes_witness :
    (deleteProduct [[("_id", JVal.jstr "0123456789abcdef01234567")]]
        "0123456789abcdef01234567").1.status = 200 ∧
    (deleteProduct
        (deleteProduct [[("_id", JVal.jstr "0123456789abcdef01234567")]]
          "0123456789abcdef01234567").2.1
        "0123456789abcdef01234567").1 = ⟨404, Body.errorMsg "Not found"⟩ :=
  (c7_id_routes [[("_id", JVal.jstr "0123456789abcdef01234567")]]
    "0123456789abcdef01234567").2.2 (by decide) (by decide)
    [("_id", JVal.jstr "0123456789abcdef01234567")] (by decide)

lemma mem_buildUpdate_name (b : ReqBody) (v : JVal) (h : b.name = some v) :
    ("name", v) ∈ buildUpdate b := by
  rcases b with ⟨n, p, c⟩
  cases p <;> cases c <;> simp_all [buildUpdate]

lemma mem_buildUpdate_category (b : ReqBody) (v : JVal) (h : b.category = some v) :
    ("category", v) ∈ buildUpdate b := by
  rcases b with ⟨n, p, c⟩
  cases n <;> cases p <;> simp_all [buildUpdate]

lemma mem_buildUpdate_price (b : ReqBody) (pv : JVal) (h : b.price = some pv) :
    ("price", JVal.jnum pv.toNumber) ∈ buildUpdate b := by
  rcases b with ⟨n, p, c⟩
  cases n <;> cases c <;> simp_all [buildUpdate]

lemma goodDoc_setFields_buildUpdate (e : Doc) (b : ReqBody) (he : goodDoc e)
    (hp : ∀ pv, b.price = some pv → pv.toNumber ≠ JNum.nan) :
    goodDoc (setFields e (buildUpdate b)) := by
  obtain ⟨⟨v1, h1⟩, ⟨v2, h2⟩, ⟨p0, h3, h3n⟩, ⟨v4, h4⟩⟩ := he
  have hidk : ("_id" : String) ∉ (buildUpdate b).map Prod.fst := by
    rw [buildUpdate_keys]; simp
  refine ⟨⟨v1, ?_⟩, ?_, ?_, ?_⟩
  · rw [lookupField_setFields_not_mem _ _ _ hidk]; exact h1
  · cases hbn : b.name with
    | none =>
      have hnk : ("name" : String) ∉ (buildUpdate b).map Prod.fst := by
        rw [buildUpdate_keys]; simp [hbn]
      exact ⟨v2, by rw [lookupField_setFields_not_mem _ _ _ hnk]; exact h2⟩
    | some v =>
      exact ⟨v, lookupField_setFields_mem _ _ _ _
        (mem_buildUpdate_name b v hbn) (buildUpdate_keys_nodup b)⟩
  · cases hbp : b.price with
    | none =>
      have hnk : ("price" : String) ∉ (buildUpdate b).map Prod.fst := by
        rw [buildUpdate_keys]; simp [hbp]
      exact ⟨p0, by rw [lookupField_setFields_not_mem _ _ _ hnk]; exact h3, h3n⟩
    | some pv =>
      exact ⟨pv.toNumber, lookupField_setFields_mem _ _ _ _
        (mem_buildUpdate_price b pv hbp) (buildUpdate_keys_nodup b), hp pv hbp⟩
  · cases hbc : b.category with
    | none =>
      have hnk : ("category" : String) ∉ (buildUpdate b).map Prod.fst := by
        rw [buildUpdate_keys]; simp [hbc]
      exact ⟨v4, by rw [lookupField_setFields_not_mem _ _ _ hnk]; exact h4⟩
    | some v =>
      exact ⟨v, lookupField_setFields_mem _ _ _ _
        (mem_buildUpdate_category b v hbc) (buildUpdate_keys_nodup b)⟩

/-- C4 (amended): every product persisted through the accepted create and
update operations has all four fields (id, name, price, category)
present, and its price is a number other than NaN; negative prices and
empty name or category strings are accepted, so well-formedness does not
include non-negativity or non-emptiness. -/
theorem c4_persisted_product_fields (st : Store) (h : goodStore st) :
    (∀ b freshId, goodStore (postProduct st b freshId).2.1)
  ∧ (∀ i b, goodStore (putProduct st i b).2.1) := by
  constructor
  · intro b freshId
    by_cases hcond : truthyOpt b.name = false ∨ b.price = none ∨
        truthyOpt b.category = false
    · simp only [postProduct]
      rw [if_pos hcond]
      exact h
    · simp only [postProduct]
      rw [if_neg hcond]
      push_neg at hcond
      obtain ⟨hn, hpne, hc⟩ := hcond
      obtain ⟨nv, hnv⟩ : ∃ v, b.name = some v := by
        cases hb : b.name
        · rw [hb] at hn; simp [truthyOpt] at hn
        · exact ⟨_, rfl⟩
      obtain ⟨pv, hpv⟩ : ∃ v, b.price = some v := by
        cases hb : b.price
        · exact absurd hb hpne
        · exact ⟨_, rfl⟩
      obtain ⟨cv, hcv⟩ : ∃ v, b.category = some v := by
        cases hb : b.category
        · rw [hb] at hc; simp [truthyOpt] at hc
        · exact ⟨_, rfl⟩
      rw [hnv, hpv, hcv]
      by_cases hnan : pv.toNumber = JNum.nan
      · simp only [hnan, if_pos rfl]
        exact h
      · simp only [if_neg hnan, collectionInsertOne]
        intro d hd
        rcases List.mem_append.mp hd with hmem | hnew
        · exact h d hmem
        · have hda : d = ("_id", JVal.jstr freshId) ::
              [("name", nv), ("price", JVal.jnum pv.toNumber), ("category", cv)] := by
            simpa using hnew
          rw [hda]
          exact ⟨⟨JVal.jstr freshId, by simp [lookupField_cons]⟩,
            ⟨nv, by simp [lookupField_cons]⟩,
            ⟨pv.toNumber, by simp [lookupField_cons], hnan⟩,
            ⟨cv, by simp [lookupField_cons]⟩⟩
  · intro i b
    by_cases hid : isValidObjectId i = false
    · simp only [putProduct]
      rw [if_pos hid]
      exact h
    · have hid' : isValidObjectId i = true := by simpa using hid
      by_cases hall : b.name = none ∧ b.price = none ∧ b.category = none
      · simp only [putProduct]
        rw [if_neg (by simp [hid']), if_pos hall]
        exact h
      · by_cases hex : ∃ pv, b.price = some pv ∧ pv.toNumber = JNum.nan
        · obtain ⟨pv, hpv, hn⟩ := hex
          simp only [putProduct]
          rw [if_neg (by simp [hid']), if_neg hall]
          simp only [hpv, hn, if_pos rfl]
          exact h
        · push_neg at hex
          have hp : ∀ pv, b.price = some pv → pv.toNumber ≠ JNum.nan := hex
          rw [putProduct_valid st i b hid' hall hp, putRun_store]
          intro d hd
          rcases mem_updateFirst _ _ _ _ hd with hmem | ⟨e, he, hde⟩
          · exact h d hmem
          · rw [hde]
            exact goodDoc_setFields_buildUpdate e b (h e he) hp

theorem c4_persisted_product_fields_witness :
    goodStore ((postProduct []
      ⟨some (.jstr "A"), some (.jnum (.fin 2 0)), some (.jstr "B")⟩
      "0123456789abcdef01234567").2.1) :=
  (c4_persisted_product_fields []
    (fun d hd => absurd hd (List.not_mem_nil d))).1 _ _
